import Mathlib

/-!
Verification of the fishingboat scale-to-zero reverse proxy (Go sources
`fishingboat.go`, `mutexmap.go`).  The Go code is shallowly embedded:

* Go maps become association lists with `alookup` / `ainsert` / `aerase`
  (Go map indexing of a missing key yields the zero value, modelled with
  `Option.getD`).
* The container runtime (docker client) is an external collaborator; its
  responses are an explicit environment record supplied to each operation.
* Timestamps are `Int` nanosecond counts.  `time.Since(ts).Seconds() > 0`
  reduces to `ts < now` (a duration of at least one nanosecond converts to
  a strictly positive float, a zero or negative duration does not).
* `connCount` is a Go `uint` (64-bit), modelled by `Nat` with arithmetic
  taken modulo `2 ^ 64` where the code increments or decrements.
* Go `defer` blocks run in reverse registration order on every return;
  `LaunchContainer` registers the port-map hydration block before the
  resource-release block, so on each exit path the release block is
  applied first and the hydration block second.  The embedding applies
  them in exactly that order at every exit point.
-/

/-- Association-list lookup, the embedding of Go map indexing. -/
def alookup {α β : Type} [DecidableEq α] (k : α) : List (α × β) → Option β
  | [] => none
  | p :: rest => if p.1 = k then some p.2 else alookup k rest

/-- Association-list insert/overwrite, the embedding of Go map assignment. -/
def ainsert {α β : Type} [DecidableEq α] (k : α) (v : β) : List (α × β) → List (α × β)
  | [] => [(k, v)]
  | p :: rest => if p.1 = k then (k, v) :: rest else p :: ainsert k v rest

/-- Association-list removal, the embedding of Go `delete`. -/
def aerase {α β : Type} [DecidableEq α] (k : α) : List (α × β) → List (α × β)
  | [] => []
  | p :: rest => if p.1 = k then aerase k rest else p :: aerase k rest

/-- `Resources` from fishingboat.go: (milliCPU, memoryMi, gpuMemoryMi). -/
structure Resources where
  milliCPU : Int
  memoryMi : Int
  gpuMemoryMi : Int
deriving DecidableEq

/-- Componentwise addition (the reservation commit in `LaunchContainer`). -/
def addRes (a b : Resources) : Resources :=
  ⟨a.milliCPU + b.milliCPU, a.memoryMi + b.memoryMi, a.gpuMemoryMi + b.gpuMemoryMi⟩

/-- Componentwise subtraction (the release blocks in `LaunchContainer` and
`StopContainer`). -/
def subRes (a b : Resources) : Resources :=
  ⟨a.milliCPU - b.milliCPU, a.memoryMi - b.memoryMi, a.gpuMemoryMi - b.gpuMemoryMi⟩

/-- Componentwise order on resources (invariant R1 compares this way). -/
def resLE (a b : Resources) : Prop :=
  a.milliCPU ≤ b.milliCPU ∧ a.memoryMi ≤ b.memoryMi ∧ a.gpuMemoryMi ≤ b.gpuMemoryMi

instance (a b : Resources) : Decidable (resLE a b) := by
  unfold resLE; infer_instance

/-- `PortMapping` from fishingboat.go. -/
structure PortMapping where
  containerPort : Int
  hostPorts : List Int
deriving DecidableEq

/-- `Service` from fishingboat.go (the opaque `Config`/`HostConfig`
passthrough maps are forwarded verbatim to the runtime and play no role in
any claim, so they are not carried). -/
structure Service where
  name : String
  resourceRequest : Resources
  coolDown : Int
  ports : List PortMapping
  image : String
  pullPolicy : String
  hostIP : String
deriving DecidableEq

/-- `ServicesConfig` (with `resources.allocationLimits` flattened). -/
structure SConfig where
  proxyIP : String
  serviceHostIP : String
  limits : Resources
  services : List Service
deriving DecidableEq

/-- The mutable fields of `Server`: the three per-service maps and the
tracked resource ledger. -/
structure ServerState where
  portMap : List (String × List (Int × Int))
  connCount : List (String × Nat)
  killTime : List (String × Int)
  tracked : Resources
deriving DecidableEq

/-- The refcount block of `HandleConnection` (`ServiceConnCount[name]++`
under the writer lock).  Indexing a missing key yields 0; the increment is
Go `uint` arithmetic.  Note it does not touch `ServiceKillTime`. -/
def handleConnAcquire (name : String) (s : ServerState) : ServerState :=
  { s with connCount :=
      ainsert name (((alookup name s.connCount).getD 0 + 1) % 2 ^ 64) s.connCount }

/-- The deferred block of `HandleConnection`: decrement the refcount and,
when it reaches 0, arm `ServiceKillTime[name] = now + coolDown` (nanoseconds). -/
def handleConnRelease (now : Int) (app : Service) (s : ServerState) : ServerState :=
  let c := ((alookup app.name s.connCount).getD 0 + (2 ^ 64 - 1)) % 2 ^ 64
  let s1 := { s with connCount := ainsert app.name c s.connCount }
  if c = 0 then
    { s1 with killTime := ainsert app.name (now + app.coolDown * 1000000000) s1.killTime }
  else s1

/-- The backend-port lookup of `HandleConnection`: `backendHostPort` starts
at -1 and is replaced only when both map lookups succeed. -/
def forwarderLookup (s : ServerState) (name : String) (cp : Int) : Int :=
  match alookup name s.portMap with
  | none => -1
  | some m =>
    match alookup cp m with
    | none => -1
    | some p => p

/-- Starting port of `FindOpenPort`: `rangeStart + rand.Intn(rangeEnd-rangeStart)`.
`rand.Intn (65535 - 49152)` is uniform on `[0, 16382]`, modelled as the seed
taken modulo 16383. -/
def findOpenPortStart (r : Nat) : Int :=
  49152 + ((r % 16383 : Nat) : Int)

/-- The probe loop of `FindOpenPort`: try to bind `p`; on failure advance by
one, wrapping past 65535 back to 49152; give up when the attempt budget is
exhausted. -/
def findOpenPortLoop (busy : Int → Bool) : Nat → Int → Option Int
  | 0, _ => none
  | fuel + 1, p =>
    if busy p then
      findOpenPortLoop busy fuel (if p + 1 > 65535 then 49152 else p + 1)
    else some p

/-- `FindOpenPort`: 32 attempts from the random start; on exhaustion it
returns `(-1, error)`, modelled by the `false` flag. -/
def findOpenPort (busy : Int → Bool) (r : Nat) : Int × Bool :=
  match findOpenPortLoop busy 32 (findOpenPortStart r) with
  | some p => (p, true)
  | none => (-1, false)

/-- Result of the `ContainerList` + name match in `LaunchContainer` /
`StopContainer`: an API error, no container with the name, or a container
with its id, image string and state string. -/
inductive FindResult where
  | err (e : String)
  | notFound
  | found (id : String) (image : String) (state : String)
deriving DecidableEq

/-- One `ContainerInspect` snapshot as consumed by the readiness poll:
`State.Status`, `State.Running`, and `State.Health.Status` (`none` when the
container declares no healthcheck, which the code maps to
`types.NoHealthcheck = "none"`). -/
structure InspectSnap where
  status : String
  running : Bool
  health : Option String
deriving DecidableEq

/-- Responses of the docker driver to the calls `LaunchContainer` makes, in
program order.  `clientNew`: error from `client.NewClientWithOpts` (the code
panics on it).  `find`: the list/search outcome.  `removeRes`: error from
`ContainerRemove` on image mismatch.  `alloc`: outcome of `FindOpenPort`
for each container port (`none` = allocation failed).  `createRes`:
`ContainerCreate`.  `startErr`: `ContainerStart`.  `poll`: the inspect
stream of the readiness loop.  `inspectBindings`: `ContainerInspect` in the
deferred port-map hydration block, giving `HostConfig.PortBindings` as a
list of (`"<port>/<proto>"` key, host-port strings of the bindings).
Image pull / image list results affect only logging (every pull error path
falls through and `err` is reassigned before the next return), so they are
not carried. -/
structure LaunchEnv where
  clientNew : Option String
  find : FindResult
  removeRes : Option String
  alloc : Int → Option Int
  createRes : Except String String
  startErr : Option String
  poll : Nat → Except String InspectSnap
  inspectBindings : Except String (List (String × List String))

/-- Result of `LaunchContainer`: nil error, non-nil error, or a Go panic. -/
inductive LaunchResult where
  | ok
  | error (msg : String)
  | panicked
deriving DecidableEq

/-- Decimal parse of the sign-free digit strings this program feeds to
`strconv.Atoi` (port numbers from `"<port>/<proto>"` keys and host-port
binding strings). -/
def atoiDigits (cs : List Char) : Option Int :=
  if cs = [] then none
  else if cs.all (fun c => c.isDigit) then
    some (Int.ofNat (cs.foldl (fun n c => n * 10 + (c.toNat - 48)) 0))
  else none

/-- `strconv.Atoi(strings.Split(key, "/")[0])`: the digits before the first
slash of a `"<port>/<proto>"` key. -/
def parsePortKey (k : String) : Option Int :=
  atoiDigits (k.toList.takeWhile (fun c => c ≠ '/'))

/-- The readiness poll body of `LaunchContainer`: inspect; any inspect error
fails; a status other than "running" fails; no healthcheck plus
`Running = true` succeeds; health "healthy" succeeds; otherwise sleep 100 ms
and retry; 100 polls (10 s) without success fail. -/
def waitReadyLoop (poll : Nat → Except String InspectSnap) : Nat → Nat → Option String
  | _, 0 => some "container did not start in time"
  | i, fuel + 1 =>
    match poll i with
    | .error e => some e
    | .ok snap =>
      if snap.status ≠ "running" then some "container is not running"
      else if snap.health.getD "none" = "none" then
        if snap.running then none else waitReadyLoop poll (i + 1) fuel
      else if snap.health.getD "none" = "healthy" then none
      else waitReadyLoop poll (i + 1) fuel

/-- The full 10 s / 100 ms readiness wait (`none` = ready, `some` = error). -/
def waitReady (poll : Nat → Except String InspectSnap) : Option String :=
  waitReadyLoop poll 0 100

/-- The loop of the deferred hydration block: for each
(`"<port>/<proto>"`, bindings) pair, parse the container port and
`bindings[0].HostPort` and store the pair; a parse failure aborts with the
inserts so far kept (the Go map is mutated in place); `bindings[0]` of an
empty bindings list is an index-out-of-range panic. -/
def hydrateLoop : List (String × List String) → List (Int × Int) →
    List (Int × Int) × LaunchResult
  | [], inner => (inner, .ok)
  | (k, hps) :: rest, inner =>
    match parsePortKey k with
    | none => (inner, .error "error parsing port")
    | some cp =>
      match hps with
      | [] => (inner, .panicked)
      | hp :: _ =>
        match atoiDigits hp.toList with
        | none => (inner, .error "error parsing port")
        | some hpv => hydrateLoop rest (ainsert cp hpv inner)

/-- The deferred port-map hydration block of `LaunchContainer` (registered
before the create/start stages, hence run last on every exit).  It does
nothing when the function is already returning an error; otherwise, when
`ServiceProxyHostPortMap` has no entry for the service, it inspects the
container and populates the entry from the observed port bindings — and any
failure here becomes the function's returned error. -/
def hydrate (app : Service) (env : LaunchEnv) (s : ServerState) (errSoFar : Option String) :
    ServerState × LaunchResult :=
  match errSoFar with
  | some e => (s, .error e)
  | none =>
    match alookup app.name s.portMap with
    | some _ => (s, .ok)
    | none =>
      match env.inspectBindings with
      | .error e => (s, .error e)
      | .ok bs =>
        match hydrateLoop bs [] with
        | (inner, res) => ({ s with portMap := ainsert app.name inner s.portMap }, res)

/-- The host-port allocation loop of the create path: for each declared
container port, validate it (`nat.NewPort` accepts 0..65535), then under
the writer lock find-or-create the service's port map entry and assign
`map[containerPort], err = FindOpenPort(hostIP)` — a failed allocation
still stores the returned -1 before the error return. -/
def allocPorts (env : LaunchEnv) (name : String) :
    List PortMapping → ServerState → ServerState × Option String
  | [], s => (s, none)
  | pm :: rest, s =>
    if pm.containerPort < 0 ∨ 65535 < pm.containerPort then
      (s, some "port not available")
    else
      let inner := (alookup name s.portMap).getD []
      match env.alloc pm.containerPort with
      | none =>
        ({ s with portMap := ainsert name (ainsert pm.containerPort (-1) inner) s.portMap },
         some "could not find open port after 32 attempts")
      | some v =>
        allocPorts env name rest
          { s with portMap := ainsert name (ainsert pm.containerPort v inner) s.portMap }

/-- The admission check of `LaunchContainer` (lines 507-520, run under the
ledger's reader lock): report the first dimension where
`tracked + request` exceeds the configured limits. -/
def admitCheck (limits tracked req : Resources) : Option String :=
  if limits.milliCPU < tracked.milliCPU + req.milliCPU then
    some "not enough cpu resources to launch container"
  else if limits.memoryMi < tracked.memoryMi + req.memoryMi then
    some "not enough memory resources to launch container"
  else if limits.gpuMemoryMi < tracked.gpuMemoryMi + req.gpuMemoryMi then
    some "not enough video memory resources to launch container"
  else none

/-- Release of the service's reservation (the deferred block registered
right after the commit, and the success path of `StopContainer`). -/
def releaseRes (app : Service) (s : ServerState) : ServerState :=
  { s with tracked := subRes s.tracked app.resourceRequest }

/-- Admission, commit, start and readiness wait of `LaunchContainer`
(everything from line 507 on).  On admission failure nothing was committed;
after the commit, a start or readiness failure runs the release defer
(registered after the commit, hence run first) and then the hydration defer
(which skips on a pending error); on success the release defer sees a nil
error and does nothing, and the hydration defer runs — possibly turning the
success into an error without releasing the reservation. -/
def launchStart (cfg : SConfig) (app : Service) (env : LaunchEnv) (s : ServerState) :
    ServerState × LaunchResult :=
  match admitCheck cfg.limits s.tracked app.resourceRequest with
  | some e => hydrate app env s (some e)
  | none =>
    let s1 := { s with tracked := addRes s.tracked app.resourceRequest }
    match env.startErr with
    | some e => hydrate app env (releaseRes app s1) (some e)
    | none =>
      match waitReady env.poll with
      | some e => hydrate app env (releaseRes app s1) (some e)
      | none => hydrate app env s1 none

/-- The create path of `LaunchContainer` (container absent or removed):
pull per policy (logging only), allocate host ports, create, then start. -/
def launchCreate (cfg : SConfig) (app : Service) (env : LaunchEnv) (s : ServerState) :
    ServerState × LaunchResult :=
  match allocPorts env app.name app.ports s with
  | (s1, some e) => hydrate app env s1 (some e)
  | (s1, none) =>
    match env.createRes with
    | .error e => hydrate app env s1 (some e)
    | .ok _ => launchStart cfg app env s1

/-- `LaunchContainer` (the `Ensure` operation).  A client-construction
failure panics.  A list error returns before the hydration defer is
registered.  A found container with a different image is force-removed
(treated as absent) or the remove error is returned.  A found container
already in state "running" returns immediately with a nil error — through
the hydration defer, with no ledger interaction.  Otherwise the flow
proceeds to admission and start. -/
def launchContainer (cfg : SConfig) (app : Service) (env : LaunchEnv) (s : ServerState) :
    ServerState × LaunchResult :=
  match env.clientNew with
  | some _ => (s, .panicked)
  | none =>
    match env.find with
    | .err e => (s, .error e)
    | .notFound => launchCreate cfg app env s
    | .found _ img st =>
      if img ≠ app.image then
        match env.removeRes with
        | some e => (s, .error e)
        | none => launchCreate cfg app env s
      else if st = "running" then hydrate app env s none
      else launchStart cfg app env s

/-- Responses of the docker driver to the calls `StopContainer` makes. -/
structure StopEnv where
  clientNew : Option String
  find : FindResult
  stopErr : Option String
  waitErr : Option String

/-- Result of `StopContainer`. -/
inductive StopResult where
  | ok
  | error (msg : String)
deriving DecidableEq

/-- `StopContainer` after the connection-count guard: construct the client
(an error returns non-fatally), list, stop, wait, and on success release
the stopped service's configured resource request (the first config entry
with the name; a missing entry only logs).  The returned list is the trace
of driver calls issued, in order. -/
def stopAfterCheck (cfg : SConfig) (env : StopEnv) (name : String) (s : ServerState) :
    ServerState × StopResult × List String :=
  match env.clientNew with
  | some e => (s, .error e, [])
  | none =>
    match env.find with
    | .err e => (s, .error e, ["list"])
    | .notFound => (s, .error "container does not exist", ["list"])
    | .found _ _ _ =>
      match env.stopErr with
      | some e => (s, .error e, ["list", "stop"])
      | none =>
        match env.waitErr with
        | some e => (s, .error e, ["list", "stop", "wait"])
        | none =>
          match cfg.services.find? (fun sv => sv.name = name) with
          | none => (s, .ok, ["list", "stop", "wait"])
          | some sv =>
            ({ s with tracked := subRes s.tracked sv.resourceRequest },
             .ok, ["list", "stop", "wait"])

/-- `StopContainer`: under the writer lock, refuse with an error when the
service's recorded connection count is positive (before any driver call);
otherwise proceed. -/
def stopContainer (cfg : SConfig) (env : StopEnv) (name : String) (s : ServerState) :
    ServerState × StopResult × List String :=
  match alookup name s.connCount with
  | some c =>
    if 0 < c then (s, .error "container has active connections", [])
    else stopAfterCheck cfg env name s
  | none => stopAfterCheck cfg env name s

/-- The per-entry eligibility test of one `CleanUpContainers` iteration:
`time.Since(killTime).Seconds() > 0` (that is, `killTime < now`, strictly)
and the recorded connection count exists and is 0 (a missing count only
logs). -/
def reapEligible (s : ServerState) (now : Int) (kt : String × Int) : Bool :=
  decide (kt.2 < now) &&
    match alookup kt.1 s.connCount with
    | some c => decide (c = 0)
    | none => false

/-- The per-service body of the reaper's kill loop: call `StopContainer`
and then delete the service's `killTime` under the writer lock, whether or
not the stop succeeded. -/
def cleanStopOne (cfg : SConfig) (envOf : String → StopEnv) (st : ServerState) (k : String) :
    ServerState :=
  let st1 := (stopContainer cfg (envOf k) k st).1
  { st1 with killTime := aerase k st1.killTime }

/-- One iteration of the `CleanUpContainers` loop: snapshot under the
reader lock the kill-eligible services, then run the kill loop over the
snapshot.  Returns the new state and the list of services for which
`StopContainer` was invoked. -/
def cleanUpTick (cfg : SConfig) (envOf : String → StopEnv) (now : Int) (s : ServerState) :
    ServerState × List String :=
  let toKill := (s.killTime.filter (reapEligible s now)).map Prod.fst
  (toKill.foldl (cleanStopOne cfg envOf) s, toKill)

/-- The registry bookkeeping of `MutexMap.Lock` (mutexmap.go): under the
registry lock, find-or-create the key's entry (fresh entries start with
count 0) and increment its holder count.  The sub-lock acquire that follows
is outside the registry critical section and does not touch the map. -/
def mmLock (k : String) (m : List (String × Int)) : List (String × Int) :=
  match alookup k m with
  | none => ainsert k 1 m
  | some c => ainsert k (c + 1) m

/-- The registry bookkeeping of `MutexMap.Unlock`: a missing entry is a
panic (`none`); otherwise decrement the holder count and delete the entry
when the count reaches `<= 0`, before releasing the sub-lock. -/
def mmUnlock (k : String) (m : List (String × Int)) : Option (List (String × Int)) :=
  match alookup k m with
  | none => none
  | some c => if c - 1 ≤ 0 then some (aerase k m) else some (ainsert k (c - 1) m)

/-- A completed `Lock` or `Unlock` call on the registry. -/
inductive MMOp where
  | lock (k : String)
  | unlock (k : String)
deriving DecidableEq

/-- Run a serialization of completed registry critical sections;
`none` means some `Unlock` hit a missing key and panicked. -/
def mmRun : List MMOp → List (String × Int) → Option (List (String × Int))
  | [], m => some m
  | .lock k :: rest, m => mmRun rest (mmLock k m)
  | .unlock k :: rest, m =>
    match mmUnlock k m with
    | none => none
    | some m2 => mmRun rest m2

/-- Number of `Lock k` calls in a registry history. -/
def nLocks (k : String) : List MMOp → Nat
  | [] => 0
  | .lock k2 :: rest => (if k2 = k then 1 else 0) + nLocks k rest
  | .unlock _ :: rest => nLocks k rest

/-- Number of `Unlock k` calls in a registry history. -/
def nUnlocks (k : String) : List MMOp → Nat
  | [] => 0
  | .unlock k2 :: rest => (if k2 = k then 1 else 0) + nUnlocks k rest
  | .lock _ :: rest => nUnlocks k rest

/-- Phase of one `LaunchContainer` call in its ledger interaction:
before the admission check, after passing the check (reader lock released,
commit not yet taken), failed the check, or committed. -/
inductive TPhase where
  | idle
  | checked
  | failed
  | committed
deriving DecidableEq

/-- Joint state of the ledger and two concurrent `LaunchContainer` calls. -/
structure LedgerState where
  tracked : Resources
  ph1 : TPhase
  ph2 : TPhase
deriving DecidableEq

/-- One atomic step of a launch thread against the ledger, exactly as the
code's lock structure permits: the admission check (lines 507-523) is one
critical section under the ledger's reader lock and only reads `tracked`;
the commit (lines 525-532) is a separate critical section under the writer
lock that adds the request.  Nothing prevents another thread's sections
from interleaving between a thread's check and its commit. -/
def ledgerThreadStep (limits req tracked : Resources) (ph : TPhase) : Resources × TPhase :=
  match ph with
  | .idle =>
    match admitCheck limits tracked req with
    | none => (tracked, .checked)
    | some _ => (tracked, .failed)
  | .checked => (addRes tracked req, .committed)
  | .failed => (tracked, .failed)
  | .committed => (tracked, .committed)

/-- Run a schedule (each entry names the thread taking its next ledger
step) of two launches with requests `r1` and `r2`. -/
def runLedgerSched (limits r1 r2 : Resources) : List Bool → LedgerState → LedgerState
  | [], st => st
  | i :: rest, st =>
    if i then
      match ledgerThreadStep limits r2 st.tracked st.ph2 with
      | (t, p) => runLedgerSched limits r1 r2 rest { st with tracked := t, ph2 := p }
    else
      match ledgerThreadStep limits r1 st.tracked st.ph1 with
      | (t, p) => runLedgerSched limits r1 r2 rest { st with tracked := t, ph1 := p }

/-- The atomic check-and-commit the spec's `TryReserve` prescribes, for
comparison with the split check/commit the code performs.  Modelled from
the spec: under one writer-lock critical section, commit only when every
dimension fits. -/
def tryReserveAtomic (limits req tracked : Resources) : Resources :=
  match admitCheck limits tracked req with
  | none => addRes tracked req
  | some _ => tracked

/-- Well-formedness of the mutex registry map: recorded holder counts are
positive (true of every state reachable from the empty registry). -/
def mmWF (m : List (String × Int)) : Prop :=
  ∀ k c, alookup k m = some c → 0 < c

/-- Holder count recorded for a key (0 when the key has no entry). -/
def mmBal (m : List (String × Int)) (k : String) : Int :=
  (alookup k m).getD 0

/-- The empty server state (`main` constructs all maps empty and the
tracked ledger zero). -/
def initState : ServerState := ⟨[], [], [], ⟨0, 0, 0⟩⟩

/-- Concrete service used by the counterexample evaluations. -/
def svcA : Service := ⟨"svc", ⟨1000, 1000, 1000⟩, 60, [⟨80, [80]⟩], "img", "", ""⟩

/-- Concrete configuration used by the counterexample evaluations. -/
def cfgA : SConfig := ⟨"0.0.0.0", "0.0.0.0", ⟨4000, 8000, 8000⟩, [svcA]⟩

/-- Ledger limits for the C1 interleaving: 1000 of each dimension, with
both concurrent launches requesting the full 1000. -/
def c1limits : Resources := ⟨1000, 1000, 1000⟩

/-- State after one connection was handled to completion for `svcA` at
time 100 (acquire, then the release defer arming `killTime`). -/
def c2armed : ServerState :=
  handleConnRelease 100 svcA (handleConnAcquire "svc" initState)

/-- Driver responses for the C3 leak run: the container exists with the
right image but is not running, start and readiness succeed, and the
deferred port-map hydration's inspect fails. -/
def c3env : LaunchEnv :=
  { clientNew := none, find := .found "cid" "img" "created", removeRes := none,
    alloc := fun _ => none, createRes := .error "unused", startErr := none,
    poll := fun _ => .ok ⟨"running", true, none⟩,
    inspectBindings := .error "error inspecting container" }

/-- Driver responses for the C7 counterexample: a pre-existing container
with the right image is already running, and its inspected
`HostConfig.PortBindings` is empty. -/
def c7env : LaunchEnv :=
  { clientNew := none, find := .found "cid" "img" "running", removeRes := none,
    alloc := fun _ => none, createRes := .error "unused", startErr := none,
    poll := fun _ => .ok ⟨"running", true, none⟩,
    inspectBindings := .ok [] }

/-- Driver responses for the C7 witness: same pre-existing running
container, but inspect reports a parseable binding for port 80. -/
def c7envGood : LaunchEnv :=
  { clientNew := none, find := .found "cid" "img" "running", removeRes := none,
    alloc := fun _ => none, createRes := .error "unused", startErr := none,
    poll := fun _ => .ok ⟨"running", true, none⟩,
    inspectBindings := .ok [("80/tcp", ["49200"])] }

/-- Stop-driver responses where every call succeeds. -/
def stopEnvOk : StopEnv :=
  { clientNew := none, find := .found "cid" "img" "running", stopErr := none, waitErr := none }

/-- Reaper state for the C6 boundary counterexample: `svc "a"` idle with
its kill deadline exactly equal to the current instant. -/
def c6state : ServerState := ⟨[], [("a", 0)], [("a", 10)], ⟨0, 0, 0⟩⟩

/-! ## Association-list lemmas -/

theorem alookup_ainsert {α β : Type} [DecidableEq α] (k : α) (v : β) (l : List (α × β)) :
    alookup k (ainsert k v l) = some v := by
  induction l with
  | nil => simp [ainsert, alookup]
  | cons p rest ih =>
    by_cases h : p.1 = k
    · simp [ainsert, alookup, h]
    · simp [ainsert, alookup, h, ih]

theorem alookup_ainsert_ne {α β : Type} [DecidableEq α] {k k2 : α} (v : β) (l : List (α × β))
    (h : k ≠ k2) : alookup k (ainsert k2 v l) = alookup k l := by
  induction l with
  | nil => simp [ainsert, alookup, Ne.symm h]
  | cons p rest ih =>
    by_cases h2 : p.1 = k2
    · have h3 : ¬ p.1 = k := by rw [h2]; exact Ne.symm h
      simp [ainsert, alookup, h2, h3, Ne.symm h]
    · simp [ainsert, alookup, h2, ih]

theorem alookup_aerase {α β : Type} [DecidableEq α] (k : α) (l : List (α × β)) :
    alookup k (aerase k l) = none := by
  induction l with
  | nil => simp [aerase, alookup]
  | cons p rest ih =>
    by_cases h : p.1 = k
    · simp [aerase, h, ih]
    · simp [aerase, alookup, h, ih]

theorem alookup_aerase_ne {α β : Type} [DecidableEq α] {k k2 : α} (l : List (α × β))
    (h : k ≠ k2) : alookup k (aerase k2 l) = alookup k l := by
  induction l with
  | nil => simp [aerase]
  | cons p rest ih =>
    by_cases h2 : p.1 = k2
    · have h3 : ¬ p.1 = k := by rw [h2]; exact Ne.symm h
      simp [aerase, alookup, h2, h3, Ne.symm h, ih]
    · simp [aerase, alookup, h2, ih]

theorem alookup_mem_of_nodup {α β : Type} [DecidableEq α] (l : List (α × β))
    (hnd : (l.map Prod.fst).Nodup) (k : α) (v : β) :
    (alookup k l = some v ↔ (k, v) ∈ l) := by
  induction l with
  | nil => simp [alookup]
  | cons p rest ih =>
    rw [List.map_cons, List.nodup_cons] at hnd
    rcases p with ⟨a, b⟩
    by_cases h : a = k
    · subst h
      constructor
      · intro hv
        have hb : b = v := by simpa [alookup] using hv
        subst hb
        exact List.mem_cons_self _ _
      · intro hv
        rcases List.mem_cons.mp hv with hv | hv
        · have hb : v = b := congrArg Prod.snd hv
          subst hb
          simp [alookup]
        · exact absurd (List.mem_map_of_mem Prod.fst hv) hnd.1
    · simp only [alookup, if_neg h, List.mem_cons, Prod.mk.injEq]
      rw [ih hnd.2]
      constructor
      · exact Or.inr
      · rintro (⟨hv, -⟩ | hv)
        · exact absurd hv.symm h
        · exact hv

/-! ## Port allocator (claim C8) -/

theorem findOpenPortLoop_range (busy : Int → Bool) :
    ∀ fuel p q, 49152 ≤ p → p ≤ 65535 → findOpenPortLoop busy fuel p = some q →
      49152 ≤ q ∧ q ≤ 65535 := by
  intro fuel
  induction fuel with
  | zero => intro p q _ _ h; cases h
  | succ n ih =>
    intro p q h1 h2 h
    unfold findOpenPortLoop at h
    by_cases hb : busy p = true
    · rw [if_pos hb] at h
      by_cases hw : p + 1 > 65535
      · rw [if_pos hw] at h
        exact ih _ q (by omega) (by omega) h
      · rw [if_neg hw] at h
        exact ih _ q (by omega) (by omega) h
    · rw [if_neg hb] at h
      cases h
      exact ⟨h1, h2⟩

theorem findOpenPortLoop_allBusy (busy : Int → Bool) (hb : ∀ q, busy q = true) :
    ∀ fuel p, findOpenPortLoop busy fuel p = none := by
  intro fuel
  induction fuel with
  | zero => intro p; rfl
  | succ n ih =>
    intro p
    unfold findOpenPortLoop
    rw [if_pos (hb p)]
    exact ih _

/-- Claim C8, amended: the random starting port lies in [49152, 65534]
(never 65535, since `rand.Intn(65535-49152)` excludes its bound); every
port returned with success lies in [49152, 65535]; and when every bind
attempt fails the function returns -1 with an error after its 32 attempts. -/
theorem findOpenPort_spec (busy : Int → Bool) (r : Nat) :
    (49152 ≤ findOpenPortStart r ∧ findOpenPortStart r ≤ 65534) ∧
    (∀ p, findOpenPort busy r = (p, true) → 49152 ≤ p ∧ p ≤ 65535) ∧
    ((∀ q, busy q = true) → findOpenPort busy r = (-1, false)) := by
  refine ⟨⟨?_, ?_⟩, ?_, ?_⟩
  · unfold findOpenPortStart; omega
  · unfold findOpenPortStart; omega
  · intro p h
    unfold findOpenPort at h
    rcases hl : findOpenPortLoop busy 32 (findOpenPortStart r) with _ | q
    · rw [hl] at h; simp at h
    · rw [hl] at h
      simp at h
      subst h
      exact findOpenPortLoop_range busy 32 _ q
        (by unfold findOpenPortStart; omega) (by unfold findOpenPortStart; omega) hl
  · intro hb
    unfold findOpenPort
    rw [findOpenPortLoop_allBusy busy hb]

/-- Claim C8, counterexample to "uniformly random starting port in
[49152, 65535]": even with every port free, `FindOpenPort` can never
return 65535 as the randomly chosen starting port — the random start is
confined to [49152, 65534]. -/
theorem findOpenPort_counterexample :
    ¬ ∃ r : Nat, findOpenPort (fun _ => false) r = (65535, true) := by
  rintro ⟨r, h⟩
  unfold findOpenPort findOpenPortLoop at h
  simp at h
  unfold findOpenPortStart at h
  omega

/-- Witness for `findOpenPort_spec`: with every port busy, seed 0 yields
the -1 / error outcome. -/
theorem findOpenPort_spec_witness : findOpenPort (fun _ => true) 0 = (-1, false) :=
  (findOpenPort_spec (fun _ => true) 0).2.2 (fun _ => rfl)

/-! ## Ledger admission (claim C1) -/

/-- Claim C1: the admission check and the reservation commit of
`LaunchContainer` are two separate critical sections (a reader-lock check,
then a writer-lock commit), not one atomic check-and-commit.  Under the
interleaving check/check/commit/commit of two launches that each request
the full limit, the tracked total reaches twice the limit, violating
invariant R1 — while the spec's atomic `TryReserve`, applied twice from
the same start, keeps R1. -/
theorem ledger_split_check_commit_violates_R1 :
    runLedgerSched c1limits c1limits c1limits [false, true, false, true]
        ⟨⟨0, 0, 0⟩, .idle, .idle⟩ = ⟨⟨2000, 2000, 2000⟩, .committed, .committed⟩ ∧
    ¬ resLE (runLedgerSched c1limits c1limits c1limits [false, true, false, true]
        ⟨⟨0, 0, 0⟩, .idle, .idle⟩).tracked c1limits ∧
    resLE (tryReserveAtomic c1limits c1limits (tryReserveAtomic c1limits c1limits ⟨0, 0, 0⟩))
      c1limits := by
  decide

/-! ## Acquire versus killTime (claim C2) -/

/-- Claim C2: the acquire path of `HandleConnection` increments `connCount`
but does not clear an armed `killTime`.  Starting from the empty state,
handling one connection to completion at time 100 (arming the kill
deadline) and then acquiring again reaches a state with `connCount = 1`
and `killTime` still present — the state the claim says is unreachable. -/
theorem handleConnAcquire_leaves_killTime_armed :
    alookup "svc" (handleConnAcquire "svc" c2armed).connCount = some 1 ∧
    alookup "svc" (handleConnAcquire "svc" c2armed).killTime = some 60000000100 := by
  decide

/-! ## Reservation leak on hydration failure (claim C3) -/

/-- Claim C3: an execution in which a pre-existing non-running container is
found, admission and start and readiness all succeed, and the deferred
port-map hydration's inspect then fails.  The release defer (registered
after the commit) ran before the hydration defer set the error, so
`LaunchContainer` returns a non-nil error while the tracked ledger still
holds the reservation — it does not equal its value at entry. -/
theorem launchContainer_error_leaks_reservation :
    (launchContainer cfgA svcA c3env initState).2 = .error "error inspecting container" ∧
    (launchContainer cfgA svcA c3env initState).1.tracked = ⟨1000, 1000, 1000⟩ ∧
    initState.tracked = ⟨0, 0, 0⟩ := by
  decide

/-! ## Stop refuses on live connections (claim C5) -/

/-- Claim C5: whenever the recorded connection count of a service is
positive, `StopContainer` returns the active-connections error having
issued no driver call (empty trace) and leaving the state — ledger and all
per-service maps — exactly unchanged. -/
theorem stopContainer_refuses_active_connections (cfg : SConfig) (env : StopEnv)
    (name : String) (s : ServerState) (c : Nat)
    (hc : alookup name s.connCount = some c) (hpos : 0 < c) :
    stopContainer cfg env name s = (s, .error "container has active connections", []) := by
  simp [stopContainer, hc, hpos]

/-- Witness for `stopContainer_refuses_active_connections` at a concrete
state with two live connections. -/
theorem stopContainer_refuses_active_connections_witness :
    stopContainer cfgA stopEnvOk "a" ⟨[], [("a", 2)], [], ⟨0, 0, 0⟩⟩ =
      (⟨[], [("a", 2)], [], ⟨0, 0, 0⟩⟩, .error "container has active connections", []) :=
  stopContainer_refuses_active_connections cfgA stopEnvOk "a" _ 2 (by decide) (by decide)

/-! ## Client construction failure (claim C10) -/

/-- Claim C10: when constructing the runtime client fails with the same
error, `LaunchContainer` panics (aborting the process) while
`StopContainer` returns the error non-fatally — the two public operations
handle the identical failure inconsistently. -/
theorem launch_panics_stop_errors (cfg : SConfig) (app : Service) (lenv : LaunchEnv)
    (senv : StopEnv) (name : String) (s s2 : ServerState) (e : String)
    (hl : lenv.clientNew = some e) (hs : senv.clientNew = some e)
    (hc : ∀ c, alookup name s2.connCount = some c → c = 0) :
    (launchContainer cfg app lenv s).2 = .panicked ∧
    (stopContainer cfg senv name s2).2.1 = .error e := by
  constructor
  · simp [launchContainer, hl]
  · unfold stopContainer
    rcases hcc : alookup name s2.connCount with _ | c
    · simp [stopAfterCheck, hs]
    · have h0 := hc c hcc
      subst h0
      simp [stopAfterCheck, hs]

/-- Witness for `launch_panics_stop_errors` at the empty state with a
concrete client error. -/
theorem launch_panics_stop_errors_witness :
    (launchContainer cfgA svcA { c3env with clientNew := some "no docker" } initState).2 =
        .panicked ∧
    (stopContainer cfgA { stopEnvOk with clientNew := some "no docker" } "svc" initState).2.1 =
        .error "no docker" :=
  launch_panics_stop_errors cfgA svcA _ _ "svc" initState initState "no docker" rfl rfl
    (fun c h => by simp [initState, alookup] at h)

/-! ## Keyed mutex registry (claim C9) -/

theorem mmBal_mmLock (k2 k : String) (m : List (String × Int)) :
    mmBal (mmLock k2 m) k = mmBal m k + (if k2 = k then 1 else 0) := by
  unfold mmLock mmBal
  rcases h : alookup k2 m with _ | c
  · by_cases hk : k2 = k
    · subst hk
      rw [alookup_ainsert, h]
      simp
    · rw [alookup_ainsert_ne _ _ (Ne.symm hk)]
      simp [hk]
  · by_cases hk : k2 = k
    · subst hk
      rw [alookup_ainsert, h]
      simp
    · rw [alookup_ainsert_ne _ _ (Ne.symm hk)]
      simp [hk]

theorem mmWF_mmLock (k2 : String) (m : List (String × Int)) (hwf : mmWF m) :
    mmWF (mmLock k2 m) := by
  intro k c hc
  unfold mmLock at hc
  rcases h : alookup k2 m with _ | c0 <;> simp only [h] at hc
  · by_cases hk : k = k2
    · subst hk
      rw [alookup_ainsert] at hc
      injection hc with hc
      omega
    · rw [alookup_ainsert_ne _ _ hk] at hc
      exact hwf _ _ hc
  · by_cases hk : k = k2
    · subst hk
      rw [alookup_ainsert] at hc
      injection hc with hc
      have := hwf _ _ h
      omega
    · rw [alookup_ainsert_ne _ _ hk] at hc
      exact hwf _ _ hc

theorem mmUnlock_some (k2 : String) (m m2 : List (String × Int)) (hwf : mmWF m)
    (h : mmUnlock k2 m = some m2) :
    mmWF m2 ∧ ∀ k, mmBal m2 k = mmBal m k - (if k2 = k then 1 else 0) := by
  unfold mmUnlock at h
  rcases hm : alookup k2 m with _ | c <;> simp only [hm] at h
  · cases h
  · have hc : 0 < c := hwf _ _ hm
    by_cases hz : c - 1 ≤ 0
    · rw [if_pos hz] at h
      injection h with h
      subst h
      constructor
      · intro k v hv
        by_cases hk : k = k2
        · subst hk
          rw [alookup_aerase] at hv
          cases hv
        · rw [alookup_aerase_ne _ hk] at hv
          exact hwf _ _ hv
      · intro k
        by_cases hk : k2 = k
        · subst hk
          unfold mmBal
          rw [alookup_aerase, hm]
          simp
          omega
        · unfold mmBal
          rw [alookup_aerase_ne _ (Ne.symm hk)]
          simp [hk]
    · rw [if_neg hz] at h
      injection h with h
      subst h
      constructor
      · intro k v hv
        by_cases hk : k = k2
        · subst hk
          rw [alookup_ainsert] at hv
          injection hv with hv
          omega
        · rw [alookup_ainsert_ne _ _ hk] at hv
          exact hwf _ _ hv
      · intro k
        by_cases hk : k2 = k
        · subst hk
          unfold mmBal
          rw [alookup_ainsert, hm]
          simp
        · unfold mmBal
          rw [alookup_ainsert_ne _ _ (Ne.symm hk)]
          simp [hk]

theorem mmRun_balance : ∀ (ops : List MMOp) (m0 m : List (String × Int)), mmWF m0 →
    mmRun ops m0 = some m →
    mmWF m ∧ ∀ k, mmBal m k + (nUnlocks k ops : Int) = mmBal m0 k + (nLocks k ops : Int) := by
  intro ops
  induction ops with
  | nil =>
    intro m0 m hwf h
    cases h
    exact ⟨hwf, fun k => by simp [nLocks, nUnlocks]⟩
  | cons op rest ih =>
    intro m0 m hwf h
    cases op with
    | lock k2 =>
      unfold mmRun at h
      obtain ⟨hwf2, hbal⟩ := ih (mmLock k2 m0) m (mmWF_mmLock k2 m0 hwf) h
      refine ⟨hwf2, fun k => ?_⟩
      have hb := hbal k
      rw [mmBal_mmLock k2 k m0] at hb
      unfold nLocks nUnlocks
      by_cases hk : k2 = k <;> simp [hk] at hb ⊢ <;> omega
    | unlock k2 =>
      unfold mmRun at h
      rcases hu : mmUnlock k2 m0 with _ | m1 <;> simp only [hu] at h
      · cases h
      · obtain ⟨hwf1, hbal1⟩ := mmUnlock_some k2 m0 m1 hwf hu
        obtain ⟨hwf2, hbal⟩ := ih m1 m hwf1 h
        refine ⟨hwf2, fun k => ?_⟩
        have h2 := hbal k
        have h3 := hbal1 k
        unfold nLocks nUnlocks
        by_cases hk : k2 = k <;> simp [hk] at h2 h3 ⊢ <;> omega

/-- Claim C9: after any panic-free history with equally many completed
`Lock k` and `Unlock k` calls, the registry map holds no entry for `k`. -/
theorem mutexMap_balanced_map_empty (ops : List MMOp) (m : List (String × Int)) (k : String)
    (hrun : mmRun ops [] = some m) (hbal : nLocks k ops = nUnlocks k ops) :
    alookup k m = none := by
  obtain ⟨hwf, hb⟩ := mmRun_balance ops [] m (fun k2 c h => by cases h) hrun
  have h2 := hb k
  rcases hl : alookup k m with _ | c
  · rfl
  · have hc := hwf _ _ hl
    unfold mmBal at h2
    rw [hl] at h2
    simp [alookup] at h2
    omega

/-- Witness for `mutexMap_balanced_map_empty`: the history lock "b",
lock "a", unlock "a" is balanced for "a" and leaves only the "b" entry. -/
theorem mutexMap_balanced_map_empty_witness :
    alookup "a" [("b", (1 : Int))] = none :=
  mutexMap_balanced_map_empty [.lock "b", .lock "a", .unlock "a"] [("b", 1)] "a"
    (by decide) (by decide)

/-! ## Reaper tick (claim C6) -/

theorem stopAfterCheck_maps (cfg : SConfig) (env : StopEnv) (name : String) (s : ServerState) :
    (stopAfterCheck cfg env name s).1.killTime = s.killTime ∧
    (stopAfterCheck cfg env name s).1.connCount = s.connCount := by
  rcases env with ⟨cn, fi, se, we⟩
  rcases cn with _ | e
  · rcases fi with ⟨e⟩ | _ | ⟨id, img, st⟩
    · simp [stopAfterCheck]
    · simp [stopAfterCheck]
    · rcases se with _ | e
      · rcases we with _ | e
        · rcases h : cfg.services.find? (fun sv => sv.name = name) with _ | sv
          · simp [stopAfterCheck, h]
          · simp [stopAfterCheck, h]
        · simp [stopAfterCheck]
      · simp [stopAfterCheck]
  · simp [stopAfterCheck]

theorem stopContainer_maps (cfg : SConfig) (env : StopEnv) (name : String) (s : ServerState) :
    (stopContainer cfg env name s).1.killTime = s.killTime ∧
    (stopContainer cfg env name s).1.connCount = s.connCount := by
  unfold stopContainer
  rcases h : alookup name s.connCount with _ | c
  · exact stopAfterCheck_maps cfg env name s
  · by_cases hc : 0 < c
    · simp [hc]
    · simp only [hc, if_false]
      exact stopAfterCheck_maps cfg env name s

theorem cleanStopOne_killTime (cfg : SConfig) (envOf : String → StopEnv) (s : ServerState)
    (n : String) : (cleanStopOne cfg envOf s n).killTime = aerase n s.killTime := by
  simp only [cleanStopOne]
  rw [(stopContainer_maps cfg (envOf n) n s).1]

theorem cleanStopOne_connCount (cfg : SConfig) (envOf : String → StopEnv) (s : ServerState)
    (n : String) : (cleanStopOne cfg envOf s n).connCount = s.connCount := by
  simp only [cleanStopOne]
  exact (stopContainer_maps cfg (envOf n) n s).2

theorem cleanFold_lookup (cfg : SConfig) (envOf : String → StopEnv) :
    ∀ (names : List String) (s : ServerState) (k : String),
      alookup k (names.foldl (cleanStopOne cfg envOf) s).killTime =
        (if k ∈ names then none else alookup k s.killTime) ∧
      (names.foldl (cleanStopOne cfg envOf) s).connCount = s.connCount := by
  intro names
  induction names with
  | nil => intro s k; simp
  | cons n rest ih =>
    intro s k
    simp only [List.foldl_cons]
    obtain ⟨h1, h2⟩ := ih (cleanStopOne cfg envOf s n) k
    constructor
    · rw [h1, cleanStopOne_killTime]
      by_cases hk : k ∈ rest
      · simp [hk]
      · by_cases hkn : k = n
        · subst hkn
          simp [hk, alookup_aerase]
        · rw [alookup_aerase_ne _ hkn]
          simp [hk, hkn]
    · rw [h2, cleanStopOne_connCount]

theorem reapEligible_iff (s : ServerState) (now : Int) (k : String) (t : Int) :
    reapEligible s now (k, t) = true ↔ t < now ∧ alookup k s.connCount = some 0 := by
  unfold reapEligible
  rcases h : alookup k s.connCount with _ | c
  · simp [h]
  · simp [h]

theorem mem_toKill_iff (s : ServerState) (now : Int) (k : String)
    (hnd : (s.killTime.map Prod.fst).Nodup) :
    (k ∈ (s.killTime.filter (reapEligible s now)).map Prod.fst ↔
      ∃ t, alookup k s.killTime = some t ∧ t < now ∧ alookup k s.connCount = some 0) := by
  rw [List.mem_map]
  constructor
  · rintro ⟨⟨k2, t⟩, hmem, rfl⟩
    rw [List.mem_filter] at hmem
    exact ⟨t, (alookup_mem_of_nodup _ hnd _ _).mpr hmem.1,
      (reapEligible_iff s now k2 t).mp hmem.2⟩
  · rintro ⟨t, hl, hlt, hc⟩
    exact ⟨(k, t), List.mem_filter.mpr ⟨(alookup_mem_of_nodup _ hnd _ _).mp hl,
      (reapEligible_iff s now k t).mpr ⟨hlt, hc⟩⟩, rfl⟩

/-- Claim C6, amended: on each tick the reaper selects exactly the
services whose killTime is present and STRICTLY earlier than now and whose
recorded connCount equals 0; it invokes Stop for each selected service and
deletes that service's killTime whether or not the Stop succeeded (the
stop-driver responses are arbitrary), leaving all other kill deadlines and
every connection count unchanged. -/
theorem cleanUpTick_selects (cfg : SConfig) (envOf : String → StopEnv) (now : Int)
    (s : ServerState) (k : String) (hnd : (s.killTime.map Prod.fst).Nodup) :
    (k ∈ (cleanUpTick cfg envOf now s).2 ↔
      ∃ t, alookup k s.killTime = some t ∧ t < now ∧ alookup k s.connCount = some 0) ∧
    alookup k (cleanUpTick cfg envOf now s).1.killTime =
      (if k ∈ (cleanUpTick cfg envOf now s).2 then none else alookup k s.killTime) ∧
    (cleanUpTick cfg envOf now s).1.connCount = s.connCount := by
  refine ⟨?_, ?_, ?_⟩
  · exact mem_toKill_iff s now k hnd
  · exact (cleanFold_lookup cfg envOf _ s k).1
  · exact (cleanFold_lookup cfg envOf _ s k).2

/-- Claim C6, counterexample to "past-or-equal to now": in a state where
service "a" is idle (connCount 0) and its kill deadline equals the current
instant exactly, the tick selects nothing and leaves the deadline armed,
because the code requires `time.Since(killTime).Seconds() > 0`, i.e. a
strictly past deadline. -/
theorem cleanUpTick_boundary_counterexample :
    (cleanUpTick cfgA (fun _ => stopEnvOk) 10 c6state).2 = [] ∧
    alookup "a" (cleanUpTick cfgA (fun _ => stopEnvOk) 10 c6state).1.killTime = some 10 := by
  decide

/-- Witness for `cleanUpTick_selects`: a state with one strictly past
deadline and one future deadline; the tick selects exactly the former. -/
theorem cleanUpTick_selects_witness :
    ("a" ∈ (cleanUpTick cfgA (fun _ => stopEnvOk) 10
        ⟨[], [("a", 0), ("b", 0)], [("a", 3), ("b", 99)], ⟨0, 0, 0⟩⟩).2 ↔
      ∃ t, alookup "a" [("a", (3 : Int)), ("b", 99)] = some t ∧ t < 10 ∧
        alookup "a" [("a", (0 : Nat)), ("b", 0)] = some 0) :=
  (cleanUpTick_selects cfgA (fun _ => stopEnvOk) 10
    ⟨[], [("a", 0), ("b", 0)], [("a", 3), ("b", 99)], ⟨0, 0, 0⟩⟩ "a" (by decide)).1

/-! ## Ensure idempotence on a running container (claim C4) -/

theorem hydrate_tracked (app : Service) (env : LaunchEnv) (s : ServerState)
    (e? : Option String) : (hydrate app env s e?).1.tracked = s.tracked := by
  unfold hydrate
  rcases e? with _ | e
  · rcases h : alookup app.name s.portMap with _ | m
    · rcases hb : env.inspectBindings with e | bs
      · simp [h, hb]
      · rcases hl : hydrateLoop bs [] with ⟨inner, res⟩
        simp [h, hb, hl]
    · simp [h]
  · rfl

theorem hydrate_entry_some (app : Service) (env : LaunchEnv) (s : ServerState)
    (m : List (Int × Int)) (h : alookup app.name s.portMap = some m) :
    hydrate app env s none = (s, .ok) := by
  unfold hydrate
  simp [h]

theorem hydrate_ok_entry (app : Service) (env : LaunchEnv) (s s2 : ServerState)
    (h : hydrate app env s none = (s2, .ok)) :
    ∃ m, alookup app.name s2.portMap = some m := by
  unfold hydrate at h
  rcases hm : alookup app.name s.portMap with _ | m <;> simp only [hm] at h
  · rcases hb : env.inspectBindings with e | bs <;> simp only [hb] at h
    · simp at h
    · rcases hl : hydrateLoop bs [] with ⟨inner, res⟩
      simp only [hl] at h
      rw [Prod.mk.injEq] at h
      obtain ⟨h1, h2⟩ := h
      rw [← h1]
      exact ⟨inner, alookup_ainsert _ _ _⟩
  · rw [Prod.mk.injEq] at h
    obtain ⟨h1, -⟩ := h
    rw [← h1]
    exact ⟨m, hm⟩

theorem launch_running_eq (cfg : SConfig) (app : Service) (env : LaunchEnv) (s : ServerState)
    (cid : String) (hcli : env.clientNew = none)
    (hfind : env.find = .found cid app.image "running") :
    launchContainer cfg app env s = hydrate app env s none := by
  unfold launchContainer
  rw [hcli, hfind]
  simp

/-- Claim C4: when the container is found already running (matching image),
`LaunchContainer` never touches the tracked ledger; once the service's port
map entry exists it returns `(s, ok)` unchanged; and past any first
successful call, every further call in the same situation is an identity
returning success — so N calls leave `tracked` unchanged past the first
success. -/
theorem launch_running_idempotent (cfg : SConfig) (app : Service) (env : LaunchEnv)
    (s : ServerState) (cid : String) (hcli : env.clientNew = none)
    (hfind : env.find = .found cid app.image "running") :
    (launchContainer cfg app env s).1.tracked = s.tracked ∧
    (∀ m, alookup app.name s.portMap = some m → launchContainer cfg app env s = (s, .ok)) ∧
    ((launchContainer cfg app env s).2 = .ok →
      launchContainer cfg app env (launchContainer cfg app env s).1 =
        ((launchContainer cfg app env s).1, .ok)) := by
  have hL := launch_running_eq cfg app env s cid hcli hfind
  refine ⟨?_, ?_, ?_⟩
  · rw [hL]
    exact hydrate_tracked app env s none
  · intro m hm
    rw [hL]
    exact hydrate_entry_some app env s m hm
  · intro hok
    rw [hL] at hok
    have hpair : hydrate app env s none = ((hydrate app env s none).1, .ok) := by
      rw [← hok]
    obtain ⟨m, hm⟩ := hydrate_ok_entry app env s _ hpair
    rw [hL, launch_running_eq cfg app env _ cid hcli hfind]
    exact hydrate_entry_some app env _ m hm

/-- Witness for `launch_running_idempotent`: a found running container with
an already-populated port map entry returns success with the state
unchanged, and repeats as an identity. -/
theorem launch_running_idempotent_witness :
    launchContainer cfgA svcA c7envGood ⟨[("svc", [(80, 49200)])], [], [], ⟨0, 0, 0⟩⟩ =
      (⟨[("svc", [(80, 49200)])], [], [], ⟨0, 0, 0⟩⟩, .ok) :=
  (launch_running_idempotent cfgA svcA c7envGood _ "cid" rfl rfl).2.1 [(80, 49200)] (by decide)

/-! ## Port-map population before the forwarder dials (claim C7) -/

theorem atoiDigits_nonneg (cs : List Char) (v : Int) (h : atoiDigits cs = some v) : 0 ≤ v := by
  unfold atoiDigits at h
  by_cases h1 : cs = []
  · simp [h1] at h
  · rw [if_neg h1] at h
    by_cases h2 : cs.all (fun c => c.isDigit)
    · rw [if_pos h2] at h
      injection h with h
      rw [← h]
      exact Int.ofNat_nonneg _
    · rw [if_neg h2] at h
      cases h

theorem allocPorts_ok_covers (env : LaunchEnv) (name : String) :
    ∀ (ps : List PortMapping) (s s1 : ServerState),
      allocPorts env name ps s = (s1, none) →
      ∀ cp, (cp ∈ ps.map PortMapping.containerPort ∨
             (∃ v, alookup cp ((alookup name s.portMap).getD []) = some v ∧
               env.alloc cp = some v)) →
        ∃ v, alookup cp ((alookup name s1.portMap).getD []) = some v ∧
          env.alloc cp = some v := by
  intro ps
  induction ps with
  | nil =>
    intro s s1 h cp hcp
    rw [allocPorts, Prod.mk.injEq] at h
    rw [← h.1]
    rcases hcp with hcp | hcp
    · simp at hcp
    · exact hcp
  | cons pm rest ih =>
    intro s s1 h cp hcp
    unfold allocPorts at h
    by_cases hbad : pm.containerPort < 0 ∨ 65535 < pm.containerPort
    · rw [if_pos hbad] at h
      simp at h
    · rw [if_neg hbad] at h
      rcases ha : env.alloc pm.containerPort with _ | v <;> simp only [ha] at h
      · simp at h
      · apply ih _ s1 h cp
        rcases hcp with hcp | hcp
        · rw [List.map_cons, List.mem_cons] at hcp
          rcases hcp with hcp | hcp
          · right
            subst hcp
            refine ⟨v, ?_, ha⟩
            rw [alookup_ainsert]
            simp [alookup_ainsert]
          · left
            exact hcp
        · right
          rcases hcp with ⟨v0, hv0, hav0⟩
          by_cases hpc : cp = pm.containerPort
          · subst hpc
            refine ⟨v, ?_, ha⟩
            rw [alookup_ainsert]
            simp [alookup_ainsert]
          · refine ⟨v0, ?_, hav0⟩
            rw [alookup_ainsert]
            simp only [Option.getD_some]
            rw [alookup_ainsert_ne _ _ hpc]
            exact hv0

theorem hydrateLoop_ok_covers :
    ∀ (bs : List (String × List String)) (inner inner2 : List (Int × Int)),
      hydrateLoop bs inner = (inner2, .ok) →
      ∀ cp, ((∃ v, alookup cp inner = some v ∧ 0 ≤ v) ∨
             (∃ k hps, (k, hps) ∈ bs ∧ parsePortKey k = some cp)) →
        ∃ v, alookup cp inner2 = some v ∧ 0 ≤ v := by
  intro bs
  induction bs with
  | nil =>
    intro inner inner2 h cp hcp
    rw [hydrateLoop, Prod.mk.injEq] at h
    rw [← h.1]
    rcases hcp with hcp | hcp
    · exact hcp
    · simp at hcp
  | cons b rest ih =>
    rcases b with ⟨k, hps⟩
    intro inner inner2 h cp hcp
    unfold hydrateLoop at h
    rcases hp : parsePortKey k with _ | cp2 <;> simp only [hp] at h
    · simp at h
    · rcases hps with _ | ⟨hp0, hrest⟩
      · simp at h
      · rcases hv : atoiDigits hp0.toList with _ | hpv <;> simp only [hv] at h
        · simp at h
        · apply ih _ inner2 h cp
          rcases hcp with hcp | hcp
          · rcases hcp with ⟨v, hva, hvb⟩
            by_cases hpc : cp = cp2
            · subst hpc
              exact Or.inl ⟨hpv, alookup_ainsert _ _ _, atoiDigits_nonneg _ _ hv⟩
            · exact Or.inl ⟨v, by rw [alookup_ainsert_ne _ _ hpc]; exact hva, hvb⟩
          · rcases hcp with ⟨k3, hps3, hmem, hp3⟩
            rcases List.mem_cons.mp hmem with hmem | hmem
            · have hk3 : k3 = k := congrArg Prod.fst hmem
              subst hk3
              rw [hp] at hp3
              injection hp3 with hp3
              subst hp3
              exact Or.inl ⟨hpv, alookup_ainsert _ _ _, atoiDigits_nonneg _ _ hv⟩
            · exact Or.inr ⟨k3, hps3, hmem, hp3⟩

theorem hydrate_ok_covers (app : Service) (env : LaunchEnv) (s s2 : ServerState) (cp : Int)
    (hst : ∀ m, alookup app.name s.portMap = some m → ∃ v, alookup cp m = some v ∧ 0 ≤ v)
    (hbind : ∀ bs, env.inspectBindings = .ok bs →
      ∃ k hps, (k, hps) ∈ bs ∧ parsePortKey k = some cp)
    (h : hydrate app env s none = (s2, .ok)) :
    ∃ v, alookup cp ((alookup app.name s2.portMap).getD []) = some v ∧ 0 ≤ v := by
  unfold hydrate at h
  rcases hm : alookup app.name s.portMap with _ | m <;> simp only [hm] at h
  · rcases hb : env.inspectBindings with e | bs <;> simp only [hb] at h
    · simp at h
    · rcases hl : hydrateLoop bs [] with ⟨inner, res⟩
      simp only [hl] at h
      rw [Prod.mk.injEq] at h
      obtain ⟨h1, h2⟩ := h
      rw [← h1]
      simp only [alookup_ainsert, Option.getD_some]
      apply hydrateLoop_ok_covers bs [] inner _ cp (Or.inr (hbind bs hb))
      rw [hl, h2]
  · rw [Prod.mk.injEq] at h
    obtain ⟨h1, -⟩ := h
    rw [← h1, hm]
    exact hst m hm

theorem launchStart_ok_covers (cfg : SConfig) (app : Service) (env : LaunchEnv)
    (s s2 : ServerState) (cp : Int)
    (hst : ∀ m, alookup app.name s.portMap = some m → ∃ v, alookup cp m = some v ∧ 0 ≤ v)
    (hbind : ∀ bs, env.inspectBindings = .ok bs →
      ∃ k hps, (k, hps) ∈ bs ∧ parsePortKey k = some cp)
    (h : launchStart cfg app env s = (s2, .ok)) :
    ∃ v, alookup cp ((alookup app.name s2.portMap).getD []) = some v ∧ 0 ≤ v := by
  unfold launchStart at h
  rcases hA : admitCheck cfg.limits s.tracked app.resourceRequest with _ | e <;>
    simp only [hA] at h
  · rcases hS : env.startErr with _ | e <;> simp only [hS] at h
    · rcases hW : waitReady env.poll with _ | e <;> simp only [hW] at h
      · exact hydrate_ok_covers app env
          { s with tracked := addRes s.tracked app.resourceRequest } s2 cp
          (fun m hm => hst m hm) hbind h
      · unfold hydrate at h
        simp at h
    · unfold hydrate at h
      simp at h
  · unfold hydrate at h
    simp at h

theorem launchCreate_ok_covers (cfg : SConfig) (app : Service) (env : LaunchEnv)
    (s s2 : ServerState) (cp : Int)
    (hcp : cp ∈ app.ports.map PortMapping.containerPort)
    (halloc : ∀ p v, env.alloc p = some v → 0 ≤ v)
    (hbind : ∀ bs, env.inspectBindings = .ok bs →
      ∃ k hps, (k, hps) ∈ bs ∧ parsePortKey k = some cp)
    (h : launchCreate cfg app env s = (s2, .ok)) :
    ∃ v, alookup cp ((alookup app.name s2.portMap).getD []) = some v ∧ 0 ≤ v := by
  unfold launchCreate at h
  rcases hA : allocPorts env app.name app.ports s with ⟨s1, e?⟩
  rcases e? with _ | e
  · simp only [hA] at h
    rcases hC : env.createRes with e | cid <;> simp only [hC] at h
    · unfold hydrate at h
      simp at h
    · apply launchStart_ok_covers cfg app env s1 s2 cp _ hbind h
      intro m hm
      obtain ⟨v, hv1, hv2⟩ := allocPorts_ok_covers env app.name app.ports s s1 hA cp
        (Or.inl hcp)
      rw [hm] at hv1
      simp at hv1
      exact ⟨v, hv1, halloc _ _ hv2⟩
  · simp only [hA] at h
    unfold hydrate at h
    simp at h

/-- Claim C7, amended: whenever `LaunchContainer` returns success, the
forwarder's lookup for a declared container port does not fall back to -1,
PROVIDED the port map entry present at entry (if any) already covers the
port, and the hydration inspect (when consulted) reports a parseable
`"<port>/<proto>"` binding for it — the creation path always covers every
declared port via allocation.  A pre-existing running container whose
inspect reports no binding for the port breaks the unconditional claim
(see the counterexample). -/
theorem launch_ok_portMap_populated (cfg : SConfig) (app : Service) (env : LaunchEnv)
    (s : ServerState) (cp : Int)
    (hcp : cp ∈ app.ports.map PortMapping.containerPort)
    (hstate : ∀ m, alookup app.name s.portMap = some m → ∃ v, alookup cp m = some v ∧ 0 ≤ v)
    (halloc : ∀ p v, env.alloc p = some v → 0 ≤ v)
    (hbind : ∀ bs, env.inspectBindings = .ok bs →
      ∃ k hps, (k, hps) ∈ bs ∧ parsePortKey k = some cp)
    (hok : (launchContainer cfg app env s).2 = .ok) :
    forwarderLookup (launchContainer cfg app env s).1 app.name cp ≠ -1 := by
  rcases hE : launchContainer cfg app env s with ⟨s2, r⟩
  rw [hE] at hok
  simp at hok
  subst hok
  show forwarderLookup s2 app.name cp ≠ -1
  have hcov : ∃ v, alookup cp ((alookup app.name s2.portMap).getD []) = some v ∧ 0 ≤ v := by
    unfold launchContainer at hE
    rcases hcn : env.clientNew with _ | e <;> simp only [hcn] at hE
    · rcases hf : env.find with e | _ | ⟨cid, img, st⟩ <;> simp only [hf] at hE
      · simp at hE
      · exact launchCreate_ok_covers cfg app env s s2 cp hcp halloc hbind hE
      · by_cases him : img ≠ app.image
        · rw [if_pos him] at hE
          rcases hr : env.removeRes with _ | e <;> simp only [hr] at hE
          · exact launchCreate_ok_covers cfg app env s s2 cp hcp halloc hbind hE
          · simp at hE
        · rw [if_neg him] at hE
          by_cases hrun : st = "running"
          · rw [if_pos hrun] at hE
            exact hydrate_ok_covers app env s s2 cp hstate hbind hE
          · rw [if_neg hrun] at hE
            exact launchStart_ok_covers cfg app env s s2 cp hstate hbind hE
    · simp at hE
  obtain ⟨v, hv1, hv2⟩ := hcov
  unfold forwarderLookup
  rcases ho : alookup app.name s2.portMap with _ | m <;> rw [ho] at hv1
  · simp [alookup] at hv1
  · simp only [Option.getD_some] at hv1
    simp only [hv1]
    omega

/-- Claim C7, counterexample: a pre-existing matching container already
running, whose inspected port bindings are empty.  `LaunchContainer`
returns success (hydration stores an empty entry), yet the forwarder's
lookup for the declared port 80 falls back to -1. -/
theorem launch_ok_portMap_counterexample :
    (launchContainer cfgA svcA c7env initState).2 = .ok ∧
    forwarderLookup (launchContainer cfgA svcA c7env initState).1 "svc" 80 = -1 := by
  decide

/-- Witness for `launch_ok_portMap_populated`: a running pre-existing
container whose inspect reports the binding "80/tcp" -> "49200". -/
theorem launch_ok_portMap_populated_witness :
    forwarderLookup (launchContainer cfgA svcA c7envGood initState).1 "svc" 80 ≠ -1 :=
  launch_ok_portMap_populated cfgA svcA c7envGood initState 80
    (by decide)
    (fun m hm => by simp [initState, alookup] at hm)
    (fun p v hv => by simp [c7envGood] at hv)
    (fun bs hb => by
      have h2 : [("80/tcp", ["49200"])] = bs := by
        have h3 : Except.ok (ε := String) [("80/tcp", ["49200"])] = Except.ok bs := hb
        injection h3
      rw [← h2]
      exact ⟨"80/tcp", ["49200"], List.mem_singleton.mpr rfl, by decide⟩)
    (by decide)
